import Mathlib

/-!
Verification of the DeepSeek / OpenRouter Home Assistant integration
(`deepseek_control`): a shallow embedding of the response-extraction and
validation pipeline (`deepseek_logic.py`, `helpers.py`, `const.py`) and of
the rate-limit monitor (`__init__.py`), together with theorems settling the
specification claims about them.

Texts are modelled as `List Char`.  Python `str` operations (substring
containment, `split`, `strip`, regular-expression scans used by the code)
are embedded as executable functions on `List Char`.
-/

/-! ## Basic string utilities -/

/-- Decides whether `p` is a (contiguous) prefix of `t`. -/
def startsWith : List Char → List Char → Bool
  | [], _ => true
  | _ :: _, [] => false
  | p :: ps, c :: cs => p == c && startsWith ps cs

/-- Python substring containment `pat in text`: `pat` occurs contiguously in
`text`. -/
def containsSub (pat : List Char) : List Char → Bool
  | [] => startsWith pat []
  | c :: cs => startsWith pat (c :: cs) || containsSub pat cs

/-- ASCII lower-casing of one character; models Python `str.lower()` on the
ASCII identifiers (model names) this program manipulates. -/
def asciiLower (c : Char) : Char :=
  if 'A' ≤ c ∧ c ≤ 'Z' then Char.ofNat (c.toNat + 32) else c

/-- ASCII lower-casing of a text, models Python `str.lower()`. -/
def lowerStr (l : List Char) : List Char := l.map asciiLower

/-- The whitespace characters stripped by Python `str.strip()` (ASCII part). -/
def pyIsSpace (c : Char) : Bool :=
  c == ' ' || c == '\t' || c == '\n' || c == '\r' || c == '\x0b' || c == '\x0c'

/-- Python `str.strip()`: removes leading and trailing whitespace. -/
def pyStrip (l : List Char) : List Char :=
  ((l.dropWhile pyIsSpace).reverse.dropWhile pyIsSpace).reverse

/-- Numeric value of a run of decimal digits, e.g. `digitsToNat ['1','2','0'] = 120`;
models Python `int()` on a digit string. -/
def digitsToNat (l : List Char) : Nat :=
  l.foldl (fun a c => a * 10 + (c.toNat - 48)) 0

/-! ## JSON values

The value space produced by Python's `json.loads`.  Numeric literals are
modelled exactly as rationals (Python converts non-integral literals to
binary floating point; the rounding is irrelevant to the structural claims
proved here).  Python also accepts the non-standard literals `NaN`,
`Infinity` and `-Infinity`; they are kept as distinguished constructors.
An object is the list of members in source order; duplicate keys are
resolved on lookup by taking the last occurrence, as a Python `dict`
built by repeated assignment does. -/

inductive Json where
  | null : Json
  | bool (b : Bool) : Json
  | num (q : Rat) : Json
  | str (s : List Char) : Json
  | arr (elems : List Json) : Json
  | obj (members : List (List Char × Json)) : Json

/-- Python `dict` lookup on an object's member list: the *last* binding of a
key wins, since a `dict` built from a member sequence overwrites earlier
bindings. -/
def jlookup (members : List (List Char × Json)) (k : List Char) : Option Json :=
  match members with
  | [] => none
  | (k0, v0) :: rest =>
    match jlookup rest k with
    | some v => some v
    | none => if k0 == k then some v0 else none

/-- Python `k in dict` membership test on an object's member list. -/
def hasKey (members : List (List Char × Json)) (k : List Char) : Bool :=
  members.any (fun m => m.1 == k)

/-! ## The JSON parser (model of `json.loads`)

A recursive-descent parser following CPython's `json` scanner: whitespace
is ` \t\n\r`; strings are strict (unescaped control characters rejected);
escape sequences are the RFC 8259 ones plus `\uXXXX` with surrogate-pair
combination (a *lone* surrogate escape, which CPython would keep as a lone
surrogate code unit, is rejected here because a Lean `Char` cannot hold
it — no claim depends on that corner); numbers follow CPython's
`NUMBER_RE`; after the top-level value only whitespace may remain
("Extra data" otherwise).  Recursion is bounded by a fuel argument that is
amply larger than any possible parse depth for the given input. -/

/-- JSON interelement whitespace, per the `json` module (` \t\n\r`). -/
def jsonWs (c : Char) : Bool :=
  c == ' ' || c == '\t' || c == '\n' || c == '\r'

/-- Skip JSON whitespace. -/
def skipWs (l : List Char) : List Char := l.dropWhile jsonWs

/-- Hexadecimal digit value, for `\uXXXX` escapes. -/
def hexVal (c : Char) : Option Nat :=
  if '0' ≤ c ∧ c ≤ '9' then some (c.toNat - 48)
  else if 'a' ≤ c ∧ c ≤ 'f' then some (c.toNat - 87)
  else if 'A' ≤ c ∧ c ≤ 'F' then some (c.toNat - 55)
  else none

/-- Parse exactly four hex digits. -/
def parseHex4 : List Char → Option (Nat × List Char)
  | a :: b :: c :: d :: rest =>
    match hexVal a, hexVal b, hexVal c, hexVal d with
    | some x, some y, some z, some w => some (((x * 16 + y) * 16 + z) * 16 + w, rest)
    | _, _, _, _ => none
  | _ => none

/-- Parse the body of a JSON string after the opening quote, returning the
decoded characters and the remaining input.  Strict mode: an unescaped
control character (code point below 0x20) is a parse error. -/
def parseJString : Nat → List Char → Option (List Char × List Char)
  | 0, _ => none
  | _, [] => none
  | fuel + 1, c :: rest =>
    if c = '"' then some ([], rest)
    else if c = '\\' then
      match rest with
      | [] => none
      | e :: r2 =>
        let cont : Char → List Char → Option (List Char × List Char) :=
          fun ch r =>
            match parseJString fuel r with
            | some (s, r3) => some (ch :: s, r3)
            | none => none
        if e = '"' then cont '"' r2
        else if e = '\\' then cont '\\' r2
        else if e = '/' then cont '/' r2
        else if e = 'b' then cont '\x08' r2
        else if e = 'f' then cont '\x0c' r2
        else if e = 'n' then cont '\n' r2
        else if e = 'r' then cont '\r' r2
        else if e = 't' then cont '\t' r2
        else if e = 'u' then
          match parseHex4 r2 with
          | none => none
          | some (n, r3) =>
            if n < 0xD800 ∨ 0xDFFF < n then cont (Char.ofNat n) r3
            else if n ≤ 0xDBFF then
              -- high surrogate: must be followed by an escaped low surrogate
              match r3 with
              | '\\' :: 'u' :: r4 =>
                match parseHex4 r4 with
                | some (m, r5) =>
                  if 0xDC00 ≤ m ∧ m ≤ 0xDFFF then
                    cont (Char.ofNat (0x10000 + (n - 0xD800) * 0x400 + (m - 0xDC00))) r5
                  else none
                | none => none
              | _ => none
            else none
        else none
    else if c.toNat < 0x20 then none
    else
      match parseJString fuel rest with
      | some (s, r3) => some (c :: s, r3)
      | none => none

/-- Integer part of a numeric literal per CPython's `NUMBER_RE`:
`0`, or a nonzero digit followed by digits. -/
def parseIntDigits : List Char → Option (Nat × List Char)
  | [] => none
  | c :: r =>
    if c = '0' then some (0, r)
    else if c.isDigit then
      let ds := r.takeWhile Char.isDigit
      some (digitsToNat (c :: ds), r.drop ds.length)
    else none

/-- Optional fraction part `.digits` (consumed only when well formed),
returning the fraction digits. -/
def parseFrac (l : List Char) : List Char × List Char :=
  match l with
  | '.' :: r =>
    let ds := r.takeWhile Char.isDigit
    if ds.isEmpty then ([], l) else (ds, r.drop ds.length)
  | _ => ([], l)

/-- Optional exponent part `[eE][+-]?digits` (consumed only when well
formed), returning the signed exponent. -/
def parseExp (l : List Char) : Int × List Char :=
  match l with
  | c :: r =>
    if c = 'e' ∨ c = 'E' then
      let (sgn, r2) : Int × List Char :=
        match r with
        | '+' :: r3 => (1, r3)
        | '-' :: r3 => (-1, r3)
        | _ => (1, r)
      let ds := r2.takeWhile Char.isDigit
      if ds.isEmpty then (0, l) else (sgn * (digitsToNat ds : Int), r2.drop ds.length)
    else (0, l)
  | [] => (0, l)

/-- `10 ^ e` as a rational, for a signed exponent. -/
def ratPow10 : Int → Rat
  | Int.ofNat n => (10 : Rat) ^ n
  | Int.negSucc n => 1 / (10 : Rat) ^ (n + 1)

/-- Exact value of a numeric literal. -/
def numValue (neg : Bool) (ip : Nat) (fd : List Char) (ex : Int) : Rat :=
  let mant : Rat := (ip : Rat) + (digitsToNat fd : Rat) / (10 : Rat) ^ fd.length
  let v := mant * ratPow10 ex
  if neg then -v else v

/-- Parse a numeric literal per CPython's `NUMBER_RE`
(optional minus, then 0 or a nonzero-led digit run, then optional
fraction, then optional exponent) at the head of the input. -/
def parseNumber (l : List Char) : Option (Json × List Char) :=
  let (neg, l1) : Bool × List Char :=
    match l with
    | '-' :: r => (true, r)
    | _ => (false, l)
  match parseIntDigits l1 with
  | none => none
  | some (ip, l2) =>
    let (fd, l3) := parseFrac l2
    let (ex, l4) := parseExp l3
    some (Json.num (numValue neg ip fd ex), l4)

mutual

/-- Parse one JSON value at the head of the input (no leading-whitespace
skip, as in CPython's `scan_once`), returning the value and remaining
input. -/
def parseValue : Nat → List Char → Option (Json × List Char)
  | 0, _ => none
  | _, [] => none
  | fuel + 1, c :: rest =>
    if c = '"' then
      match parseJString fuel rest with
      | some (s, r) => some (Json.str s, r)
      | none => none
    else if c = '{' then parseMembers fuel (skipWs rest) []
    else if c = '[' then
      match parseItems fuel (skipWs rest) [] with
      | some (es, r) => some (Json.arr es, r)
      | none => none
    else if startsWith ("null").toList (c :: rest) then
      some (Json.null, (c :: rest).drop 4)
    else if startsWith ("true").toList (c :: rest) then
      some (Json.bool true, (c :: rest).drop 4)
    else if startsWith ("false").toList (c :: rest) then
      some (Json.bool false, (c :: rest).drop 5)
    else
      match parseNumber (c :: rest) with
      | some (v, r) => some (v, r)
      | none =>
        if startsWith ("NaN").toList (c :: rest) then
          some (Json.num 0, (c :: rest).drop 3)
        else if startsWith ("Infinity").toList (c :: rest) then
          some (Json.num 0, (c :: rest).drop 8)
        else if startsWith ("-Infinity").toList (c :: rest) then
          some (Json.num 0, (c :: rest).drop 9)
        else none

/-- Parse array items after `[` (whitespace already skipped); `acc` holds
the items parsed so far, in reverse. -/
def parseItems : Nat → List Char → List Json → Option (List Json × List Char)
  | 0, _, _ => none
  | _, [], _ => none
  | fuel + 1, c :: rest, acc =>
    if c = ']' ∧ acc.isEmpty then some ([], rest)
    else
      match parseValue fuel (c :: rest) with
      | none => none
      | some (v, r) =>
        match skipWs r with
        | ']' :: r2 => some ((v :: acc).reverse, r2)
        | ',' :: r2 => parseItems fuel (skipWs r2) (v :: acc)
        | _ => none

/-- Parse object members after `{` (whitespace already skipped); `acc`
holds the members parsed so far, in reverse. -/
def parseMembers : Nat → List Char → List (List Char × Json) →
    Option (Json × List Char)
  | 0, _, _ => none
  | _, [], _ => none
  | fuel + 1, c :: rest, acc =>
    if c = '}' ∧ acc.isEmpty then some (Json.obj [], rest)
    else if c = '"' then
      match parseJString fuel rest with
      | none => none
      | some (k, r) =>
        match skipWs r with
        | ':' :: r2 =>
          match parseValue fuel (skipWs r2) with
          | none => none
          | some (v, r3) =>
            match skipWs r3 with
            | '}' :: r4 => some (Json.obj ((k, v) :: acc).reverse, r4)
            | ',' :: r4 =>
              match skipWs r4 with
              | '"' :: r5 => parseMembers fuel ('"' :: r5) ((k, v) :: acc)
              | _ => none
            | _ => none
        | _ => none
    else none

end

/-- Model of `json.loads`: skip leading whitespace, parse one value, and
require that only whitespace follows ("Extra data" otherwise).  The fuel
bound exceeds any possible recursion depth for the given input. -/
def jsonParse (l : List Char) : Option Json :=
  match parseValue (4 * l.length + 16) (skipWs l) with
  | some (v, rest) => if (skipWs rest).isEmpty then some v else none
  | none => none

/-! ## The Response Extractor (`deepseek_logic.extract_json_from_response`)

`extract_json_from_response` first deletes markdown code-fence markers with
`re.sub` over the pattern matching three backticks optionally followed by
`json` (left alternative tried first at each position, scanning left to
right), strips whitespace, then searches for a greedy brace span (first
opening brace to last closing brace) and tries `json.loads` on it; on
failure it searches for a greedy bracket span and tries again; on failure
it returns `None`. -/

/-- The seven-character fence marker (three backticks then `json`). -/
def fenceJson : List Char := ("```json").toList

/-- The three-character fence marker (three backticks). -/
def fence : List Char := ("```").toList

/-- `p` a prefix of `t` implies `p` is no longer than `t`. -/
theorem startsWith_length_le :
    ∀ (p t : List Char), startsWith p t = true → p.length ≤ t.length := by
  intro p
  induction p with
  | nil => intro t _; exact Nat.zero_le _
  | cons a as ih =>
    intro t h
    cases t with
    | nil => simp [startsWith] at h
    | cons b bs =>
      simp only [startsWith, Bool.and_eq_true] at h
      simpa using Nat.succ_le_succ (ih bs h.2)

/-- Fuel-bounded scan deleting code-fence markers; each step consumes at
least one character, so fuel equal to the input length suffices. -/
def removeFencesAux : Nat → List Char → List Char
  | 0, l => l
  | _, [] => []
  | fuel + 1, c :: rest =>
    if startsWith fenceJson (c :: rest) = true then
      removeFencesAux fuel ((c :: rest).drop 7)
    else if startsWith fence (c :: rest) = true then
      removeFencesAux fuel ((c :: rest).drop 3)
    else c :: removeFencesAux fuel rest

/-- Model of `re.sub` deleting every occurrence of a code-fence marker:
scan left to right; at each position the longer alternative (backticks then
`json`) is tried first, then the bare backticks; on a match the matched
characters are deleted and scanning resumes after them. -/
def removeFences (l : List Char) : List Char :=
  removeFencesAux l.length l

/-- The greedy regex span from the first opening brace to the last closing
brace of the text (the closing brace must come after the opening one);
`none` when no such span exists.  Models `re.search` with the pattern
"opening brace, anything, closing brace". -/
def braceSpan (l : List Char) : Option (List Char) :=
  match l.dropWhile (fun c => c != '{') with
  | [] => none
  | c :: rest =>
    match rest.reverse.dropWhile (fun x => x != '}') with
    | [] => none
    | r0 => some (c :: r0.reverse)

/-- The greedy regex span from the first opening bracket to the last
closing bracket, analogously. -/
def bracketSpan (l : List Char) : Option (List Char) :=
  match l.dropWhile (fun c => c != '[') with
  | [] => none
  | c :: rest =>
    match rest.reverse.dropWhile (fun x => x != ']') with
    | [] => none
    | r0 => some (c :: r0.reverse)

/-- Model of `extract_json_from_response`: remove code fences, strip, try
the greedy brace span as JSON, then the greedy bracket span, else `None`. -/
def extract_json_from_response (l : List Char) : Option Json :=
  let cleaned := pyStrip (removeFences l)
  let arrayAttempt : Option Json :=
    match bracketSpan cleaned with
    | some sp => jsonParse sp
    | none => none
  match braceSpan cleaned with
  | some sp =>
    match jsonParse sp with
    | some v => some v
    | none => arrayAttempt
  | none => arrayAttempt

/-! ## The Response Validator (`helpers.validate_ai_response`)

The Python function is a sequence of early-`return False` checks inside a
`try` whose `except` clause also returns `False`; every check is a total
operation on already-parsed JSON data, so the embedding is a total Boolean
function (the `except` clause is unreachable for parsed-JSON inputs). -/

/-- One command is a mapping containing `entity_id` and `action`, whose
`service_params`, when present, is a mapping. -/
def validCommand (c : Json) : Bool :=
  match c with
  | Json.obj f =>
    hasKey f (("entity_id").toList) && hasKey f (("action").toList) &&
      (match jlookup f (("service_params").toList) with
       | none => true
       | some (Json.obj _) => true
       | some _ => false)
  | _ => false

/-- Model of `validate_ai_response`. -/
def validate_ai_response (d : Json) : Bool :=
  match d with
  | Json.obj fields =>
    if ¬ hasKey fields (("reasoning").toList) then false
    else if ¬ hasKey fields (("commands").toList) then false
    else
      match jlookup fields (("commands").toList) with
      | some (Json.arr cmds) => cmds.all validCommand
      | _ => false
  | _ => false

/-! ## The Domain/Action Validator (`helpers.validate_entity_domain` and
`const.SUPPORTED_DOMAINS`) -/

/-- The static whitelist `SUPPORTED_DOMAINS` from `const.py`. -/
def SUPPORTED_DOMAINS : List (List Char × List (List Char)) :=
  [ (("light").toList, [("turn_on").toList, ("turn_off").toList, ("toggle").toList]),
    (("switch").toList, [("turn_on").toList, ("turn_off").toList, ("toggle").toList]),
    (("climate").toList,
      [("set_temperature").toList, ("set_hvac_mode").toList, ("set_fan_mode").toList]),
    (("cover").toList,
      [("open_cover").toList, ("close_cover").toList, ("set_cover_position").toList]),
    (("media_player").toList,
      [("play_media").toList, ("volume_set").toList, ("media_play").toList,
        ("media_pause").toList]) ]

/-- Association lookup in the whitelist (`SUPPORTED_DOMAINS` has no
duplicate keys, so first match equals `dict` lookup). -/
def domainActions (d : List Char) : Option (List (List Char)) :=
  match SUPPORTED_DOMAINS.find? (fun p => p.1 == d) with
  | some p => some p.2
  | none => none

/-- Python `entity_id.split(".")[0]`: the characters before the first dot,
or the whole string when it has no dot (`split` always returns a nonempty
list, so the index is always in range). -/
def pySplitHead (l : List Char) : List Char :=
  l.takeWhile (fun c => c != '.')

/-- Model of `validate_entity_domain`. -/
def validate_entity_domain (entity_id action : List Char) : Bool :=
  let domain := pySplitHead entity_id
  match domainActions domain with
  | none => false
  | some acts => acts.contains action

/-! ## The Rate-Limit Monitor (`__init__.OpenRouterAIAutomation`)

The monitor's mutable attributes (`_rate_limited`, `_retry_delay`,
`_max_retry_delay`) form the state; each coroutine is embedded as a pure
state transformer.  Scheduling (`hass.loop.call_later`) is modelled by
returning the delay passed to it; notifications and log lines are side
effects with no further data flow and are not modelled. -/

/-- The monitor state: `_rate_limited`, `_retry_delay`, `_max_retry_delay`
as set up in `OpenRouterAIAutomation.__init__`. -/
structure MonitorState where
  rate_limited : Bool
  retry_delay : Nat
  max_retry_delay : Nat
deriving DecidableEq

/-- The state after `__init__`: not limited, 60-second initial delay,
3600-second ceiling. -/
def initMonitorState : MonitorState :=
  { rate_limited := false, retry_delay := 60, max_retry_delay := 3600 }

/-- The literal scanned for by `_extract_retry_after`. -/
def retryAfterPat : List Char := ("Retry-After: ").toList

/-- One attempt of the regex at a fixed position: the literal
`Retry-After: ` followed by a maximal nonempty digit run. -/
def matchRetryAt (l : List Char) : Option Nat :=
  if startsWith retryAfterPat l then
    let ds := (l.drop retryAfterPat.length).takeWhile Char.isDigit
    if ds.isEmpty then none else some (digitsToNat ds)
  else none

/-- Model of `_extract_retry_after`: `re.search` scans left to right and
returns the first position where the pattern matches; the captured digit
run is converted with `int`. -/
def extract_retry_after (l : List Char) : Option Nat :=
  match l with
  | [] => none
  | _ :: rest =>
    match matchRetryAt l with
    | some n => some n
    | none => extract_retry_after rest

/-- The exponential-backoff branch of `_handle_rate_limit`: the wait is the
current `_retry_delay`, which is then doubled and capped at
`_max_retry_delay`. -/
def backoffStep (s : MonitorState) : MonitorState × Nat :=
  ({ s with retry_delay := min (s.retry_delay * 2) s.max_retry_delay },
    s.retry_delay)

/-- Model of `_handle_rate_limit`: set the limited flag; if a `Retry-After`
value is parseable from the error text *and truthy* (Python `if
retry_after:` — the value `0` falls through to the backoff branch), wait
that long; otherwise take the exponential-backoff branch.  The second
component is the wait passed to both the user notification and
`hass.loop.call_later` scheduling `_reset_rate_limit`. -/
def handle_rate_limit (s : MonitorState) (errMsg : List Char) :
    MonitorState × Nat :=
  let s1 := { s with rate_limited := true }
  match extract_retry_after errMsg with
  | some n => if n ≠ 0 then (s1, n) else backoffStep s1
  | none => backoffStep s1

/-- Model of `_reset_rate_limit`: clear the limited flag (the method also
logs and emits a "resumed" notification; it touches no other attribute). -/
def reset_rate_limit (s : MonitorState) : MonitorState :=
  { s with rate_limited := false }

/-! ## The HTTP layer

Both request paths are abstracted over the HTTP response the POST would
receive.  The body is the already-decoded JSON document (a body that fails
JSON decoding raises inside `aiohttp`/`json` and is outside the modelled
state space; no claim depends on it). -/

/-- An HTTP response: status code, decoded JSON body, and the optional
`Retry-After` header (a raw header string). -/
structure HttpResponse where
  status : Nat
  body : Json
  retryAfter : Option (List Char)

mutual

/-- Python `str()` of a decoded-JSON value, as interpolated by the
f-string building the rate-limit error message: `None`/`True`/`False`,
integers in decimal, `repr` quoting for strings (single quotes; escaping
inside strings is not reproduced), and brace/bracket display for
containers.  Non-integral numbers are printed as `num/den` rather than
float notation; no claim depends on a float rendering. -/
def pyRepr : Json → List Char
  | Json.null => ("None").toList
  | Json.bool true => ("True").toList
  | Json.bool false => ("False").toList
  | Json.num q =>
    if q.den = 1 then
      (if q.num < 0 then ['-'] else []) ++ Nat.toDigits 10 q.num.natAbs
    else
      (if q.num < 0 then ['-'] else []) ++ Nat.toDigits 10 q.num.natAbs ++
        ['/'] ++ Nat.toDigits 10 q.den
  | Json.str s => Char.ofNat 39 :: s ++ [Char.ofNat 39]
  | Json.arr es => '[' :: pyReprItems es ++ [']']
  | Json.obj ms => '{' :: pyReprMembers ms ++ ['}']

/-- Render array elements joined by `, `. -/
def pyReprItems : List Json → List Char
  | [] => []
  | [x] => pyRepr x
  | x :: y :: rest => pyRepr x ++ (", ").toList ++ pyReprItems (y :: rest)

/-- Render object members `'key': value` joined by `, `. -/
def pyReprMembers : List (List Char × Json) → List Char
  | [] => []
  | [m] => Char.ofNat 39 :: m.1 ++ [Char.ofNat 39] ++ (": ").toList ++ pyRepr m.2
  | m :: m2 :: rest =>
    Char.ofNat 39 :: m.1 ++ [Char.ofNat 39] ++ (": ").toList ++ pyRepr m.2 ++
      (", ").toList ++ pyReprMembers (m2 :: rest)

end

/-- The message of the `RateLimitExceededError` raised by
`_execute_ai_rules` on HTTP 429: an f-string carrying the `Retry-After`
header (or `None`) and the decoded error body. -/
def rateLimitMessage (ra : Option (List Char)) (body : Json) : List Char :=
  ("Rate limit exceeded. Retry-After: ").toList ++
    (match ra with
     | some h => h
     | none => ("None").toList) ++
    (". Error details: ").toList ++ pyRepr body

/-- Outcome of `_execute_ai_rules`: normal completion, a raised
`RateLimitExceededError` carrying its message, or a raised
`ClientResponseError` from `raise_for_status` on another error status. -/
inductive ExecOutcome where
  | ok : ExecOutcome
  | rateLimit (msg : List Char) : ExecOutcome
  | httpError (status : Nat) : ExecOutcome
deriving DecidableEq

/-- Model of `_execute_ai_rules`: on status 429 raise the distinguished
`RateLimitExceededError` built from the `Retry-After` header and the
decoded body; on any other error status `raise_for_status` raises a
`ClientResponseError`, re-raised unchanged (its status is not 429);
otherwise process the response and finish. -/
def execute_ai_rules (resp : HttpResponse) : ExecOutcome :=
  if resp.status = 429 then
    ExecOutcome.rateLimit (rateLimitMessage resp.retryAfter resp.body)
  else if 400 ≤ resp.status then ExecOutcome.httpError resp.status
  else ExecOutcome.ok

/-- Result of one periodic trigger: the monitor state afterwards, whether
an HTTP request was issued, and the recovery delay handed to
`hass.loop.call_later` (when a rate limit was handled). -/
structure UpdateResult where
  state : MonitorState
  requestIssued : Bool
  scheduledRecovery : Option Nat
deriving DecidableEq

/-- Model of `_async_update`: while rate-limited the trigger only logs a
skip and returns; otherwise `_execute_ai_rules` runs against the response
the request receives, a raised `RateLimitExceededError` is routed to
`_handle_rate_limit`, and any other error is logged with no state
change. -/
def async_update (s : MonitorState) (resp : HttpResponse) : UpdateResult :=
  if s.rate_limited then
    { state := s, requestIssued := false, scheduledRecovery := none }
  else
    match execute_ai_rules resp with
    | ExecOutcome.rateLimit msg =>
      let r := handle_rate_limit s msg
      { state := r.1, requestIssued := true, scheduledRecovery := some r.2 }
    | ExecOutcome.httpError _ =>
      { state := s, requestIssued := true, scheduledRecovery := none }
    | ExecOutcome.ok =>
      { state := s, requestIssued := true, scheduledRecovery := none }

/-! ## The LLM Client (`deepseek_logic.send_to_deepseek`) -/

/-- Outcome of evaluating `data["choices"][0]["message"]["content"]` on the
decoded response body `data`.  A missing string key on a dict raises
`KeyError`, which `send_to_deepseek`'s `except` clause catches; an empty
`choices` list raises `IndexError` and a wrongly-typed intermediate raises
`TypeError`, neither of which is in the `except` tuple, so they escape the
function. -/
inductive ContentOutcome where
  | content (s : List Char) : ContentOutcome
  | keyError : ContentOutcome
  | uncaught : ContentOutcome
deriving DecidableEq

/-- Evaluate `data["choices"][0]["message"]["content"]`, classifying the
Python exception behaviour at every step (see `ContentOutcome`).  A
non-string final content also ends `uncaught`: it flows into `re.sub`,
which raises `TypeError`. -/
def getReplyContent (data : Json) : ContentOutcome :=
  match data with
  | Json.obj fields =>
    match jlookup fields (("choices").toList) with
    | none => ContentOutcome.keyError
    | some (Json.arr []) => ContentOutcome.uncaught
    | some (Json.arr (c0 :: _)) =>
      match c0 with
      | Json.obj f2 =>
        match jlookup f2 (("message").toList) with
        | none => ContentOutcome.keyError
        | some (Json.obj f3) =>
          match jlookup f3 (("content").toList) with
          | none => ContentOutcome.keyError
          | some (Json.str s) => ContentOutcome.content s
          | some _ => ContentOutcome.uncaught
        | some _ => ContentOutcome.uncaught
      | _ => ContentOutcome.uncaught
    | some (Json.obj _) => ContentOutcome.keyError
    | some _ => ContentOutcome.uncaught
  | _ => ContentOutcome.uncaught

/-- Outcome of `send_to_deepseek`: a validated decision, the `None` return
(every handled failure is collapsed to it), or an exception escaping the
function. -/
inductive SendOutcome where
  | ok (d : Json) : SendOutcome
  | nullResult : SendOutcome
  | uncaught : SendOutcome

/-- Model of `send_to_deepseek`, abstracted over the HTTP response.  On any
error status — HTTP 429 included — `response.raise_for_status()` raises
`aiohttp.ClientResponseError`, a subclass of `aiohttp.ClientError`, which
the function's `except` clause catches and converts to `None`.  On success
the reply content is extracted and validated; both failure modes also
yield `None`.  (The diagnostic log write is a side effect whose own errors
are caught locally; it carries no data flow.) -/
def send_to_deepseek (resp : HttpResponse) : SendOutcome :=
  if 400 ≤ resp.status then SendOutcome.nullResult
  else
    match getReplyContent resp.body with
    | ContentOutcome.content reply =>
      match extract_json_from_response reply with
      | some ai =>
        if validate_ai_response ai then SendOutcome.ok ai else SendOutcome.nullResult
      | none => SendOutcome.nullResult
    | ContentOutcome.keyError => SendOutcome.nullResult
    | ContentOutcome.uncaught => SendOutcome.uncaught

/-- The JSON-mode condition in `send_to_deepseek`:
`"gpt-4" in model or "gpt-3.5" in model or "json" in model.lower()` —
the first two containment tests are case-sensitive, only the third
lower-cases the model name. -/
def usesJsonResponseFormat (model : List Char) : Bool :=
  containsSub (("gpt-4").toList) model || containsSub (("gpt-3.5").toList) model ||
    containsSub (("json").toList) (lowerStr model)

/-- The request payload assembled by `send_to_deepseek` (header fields are
constants; `messages` is the fixed system instruction plus the user
prompt). -/
structure RequestPayload where
  model : List Char
  systemContent : List Char
  userContent : List Char
  max_tokens : Int
  temperature : Rat
  response_format : Option (List Char)
deriving DecidableEq

/-- The fixed system instruction of `send_to_deepseek`. -/
def systemInstruction : List Char :=
  ("You are a home automation system that responds ONLY with valid RFC8259 compliant JSON without any additional text, explanations, or comments. Your responses must be parseable by JSON.parse() without errors.").toList

/-- Model of the payload construction in `send_to_deepseek`: the
`response_format` field of type `json_object` is added exactly when the
JSON-mode condition holds. -/
def buildPayload (prompt model : List Char) (maxTokens : Int)
    (temperature : Rat) : RequestPayload :=
  { model := model
    systemContent := systemInstruction
    userContent := prompt
    max_tokens := maxTokens
    temperature := temperature
    response_format :=
      if usesJsonResponseFormat model then some (("json_object").toList) else none }

/-! ## Helper lemmas -/

/-- `startsWith` decides the prefix relation. -/
theorem startsWith_iff (p t : List Char) :
    startsWith p t = true ↔ ∃ r, t = p ++ r := by
  induction p generalizing t with
  | nil => simp [startsWith]
  | cons a as ih =>
    cases t with
    | nil => simp [startsWith]
    | cons b bs =>
      simp only [startsWith, Bool.and_eq_true, beq_iff_eq, ih, List.cons_append,
        List.cons.injEq]
      constructor
      · rintro ⟨hab, r, hr⟩
        exact ⟨r, hab.symm, hr⟩
      · rintro ⟨r, hba, hr⟩
        exact ⟨hba.symm, r, hr⟩

/-- `containsSub` decides Python substring containment. -/
theorem containsSub_iff (p l : List Char) :
    containsSub p l = true ↔ ∃ pre suf, l = pre ++ p ++ suf := by
  induction l with
  | nil =>
    simp only [containsSub, startsWith_iff]
    constructor
    · rintro ⟨r, hr⟩
      exact ⟨[], r, by simpa using hr⟩
    · rintro ⟨pre, suf, h⟩
      have hpre : pre = [] := by cases pre with
        | nil => rfl
        | cons x xs => simp at h
      subst hpre
      exact ⟨suf, by simpa using h⟩
  | cons c cs ih =>
    simp only [containsSub, Bool.or_eq_true, startsWith_iff, ih]
    constructor
    · rintro (⟨r, hr⟩ | ⟨pre, suf, h⟩)
      · exact ⟨[], r, by simpa using hr⟩
      · exact ⟨c :: pre, suf, by simp [h]⟩
    · rintro ⟨pre, suf, h⟩
      cases pre with
      | nil => exact Or.inl ⟨suf, by simpa using h⟩
      | cons x xs =>
        simp only [List.cons_append, List.cons.injEq] at h
        exact Or.inr ⟨xs, suf, h.2⟩

/-- `takeWhile` keeps a list all of whose elements satisfy the predicate. -/
theorem takeWhile_eq_self_of_all {p : Char → Bool} :
    ∀ {l : List Char}, (∀ c ∈ l, p c = true) → l.takeWhile p = l := by
  intro l
  induction l with
  | nil => intro _; rfl
  | cons a as ih =>
    intro h
    have ha := h a (List.mem_cons_self a as)
    have has : ∀ c ∈ as, p c = true := fun c hc => h c (List.mem_cons_of_mem a hc)
    simp [List.takeWhile, ha, ih has]

/-- `dropWhile` skips a block all of whose elements satisfy the predicate. -/
theorem dropWhile_append_of_all {p : Char → Bool} :
    ∀ {pre x : List Char}, (∀ c ∈ pre, p c = true) →
      (pre ++ x).dropWhile p = x.dropWhile p := by
  intro pre
  induction pre with
  | nil => intro x _; rfl
  | cons a as ih =>
    intro x h
    have ha := h a (List.mem_cons_self a as)
    have has : ∀ c ∈ as, p c = true := fun c hc => h c (List.mem_cons_of_mem a hc)
    simp [List.dropWhile, ha, ih has]

/-- `dropWhile` stops at an element failing the predicate. -/
theorem dropWhile_cons_of_neg {p : Char → Bool} {a : Char} {l : List Char}
    (h : p a = false) : (a :: l).dropWhile p = a :: l := by
  simp [List.dropWhile, h]

/-- A key is present in a member list iff `jlookup` finds a value. -/
theorem jlookup_isSome_eq_hasKey (ms : List (List Char × Json)) (k : List Char) :
    (jlookup ms k).isSome = hasKey ms k := by
  induction ms with
  | nil => rfl
  | cons m rest ih =>
    obtain ⟨k0, v0⟩ := m
    cases hrest : jlookup rest k with
    | some v =>
      rw [hrest] at ih
      simp only [jlookup, hrest, hasKey, List.any_cons]
      simp only [hasKey] at ih
      rw [← ih]
      simp
    | none =>
      rw [hrest] at ih
      simp only [jlookup, hrest, hasKey, List.any_cons]
      simp only [hasKey] at ih
      rw [← ih]
      by_cases hk : (k0 == k) = true <;> simp [hk]

/-- `_handle_rate_limit` always sets the limited flag. -/
theorem handle_rate_limit_sets_flag (s : MonitorState) (msg : List Char) :
    ((handle_rate_limit s msg).1).rate_limited = true := by
  unfold handle_rate_limit backoffStep
  cases extract_retry_after msg with
  | none => rfl
  | some n => by_cases hn : n ≠ 0 <;> simp [hn]

/-- The backoff branch of `_handle_rate_limit`, taken whenever no
`Retry-After` value is parseable from the error text. -/
theorem handle_rate_limit_no_retry (s : MonitorState) (msg : List Char)
    (h : extract_retry_after msg = none) :
    handle_rate_limit s msg =
      ({ rate_limited := true,
         retry_delay := min (s.retry_delay * 2) s.max_retry_delay,
         max_retry_delay := s.max_retry_delay }, s.retry_delay) := by
  unfold handle_rate_limit backoffStep
  rw [h]

/-! ## Claim theorems -/

/-- C2: the domain/action authorization check returns true iff the text
before the first dot of the entity id is a key of the `SUPPORTED_DOMAINS`
whitelist and the action is a member of that domain's permitted-action
list; in particular the three cited evaluations hold. -/
theorem claim_C2_domain_whitelist :
    (∀ e a, validate_entity_domain e a = true ↔
      ∃ acts, domainActions (pySplitHead e) = some acts ∧ a ∈ acts)
    ∧ validate_entity_domain (("light.kitchen").toList) (("turn_on").toList) = true
    ∧ validate_entity_domain (("light.kitchen").toList)
        (("set_temperature").toList) = false
    ∧ validate_entity_domain (("unknown.x").toList) (("turn_on").toList) = false := by
  refine ⟨?_, by decide, by decide, by decide⟩
  intro e a
  unfold validate_entity_domain
  cases h : domainActions (pySplitHead e) with
  | none => simp [h]
  | some acts => simp [h]

/-- A single command passes the per-command checks of
`validate_ai_response` iff it is a mapping containing `entity_id` and
`action` whose `service_params`, when present, is a mapping. -/
theorem validCommand_iff (c : Json) :
    validCommand c = true ↔
      ∃ f, c = Json.obj f ∧ hasKey f (("entity_id").toList) = true ∧
        hasKey f (("action").toList) = true ∧
        ∀ sp, jlookup f (("service_params").toList) = some sp →
          ∃ g, sp = Json.obj g := by
  cases c with
  | obj f =>
    simp only [validCommand, Bool.and_eq_true]
    constructor
    · rintro ⟨⟨h1, h2⟩, h3⟩
      refine ⟨f, rfl, h1, h2, ?_⟩
      intro sp hsp
      rw [hsp] at h3
      cases sp with
      | obj g => exact ⟨g, rfl⟩
      | null => exact Bool.noConfusion h3
      | bool b => exact Bool.noConfusion h3
      | num q => exact Bool.noConfusion h3
      | str s => exact Bool.noConfusion h3
      | arr es => exact Bool.noConfusion h3
    · rintro ⟨f2, hf, h1, h2, h4⟩
      rw [Json.obj.injEq] at hf
      subst hf
      refine ⟨⟨h1, h2⟩, ?_⟩
      cases hsp : jlookup f (("service_params").toList) with
      | none => rfl
      | some sp =>
        obtain ⟨g, rfl⟩ := h4 sp hsp
        rfl
  | null =>
    constructor
    · intro h; exact Bool.noConfusion h
    · rintro ⟨f2, hf, _⟩; exact Json.noConfusion hf
  | bool b =>
    constructor
    · intro h; exact Bool.noConfusion h
    · rintro ⟨f2, hf, _⟩; exact Json.noConfusion hf
  | num q =>
    constructor
    · intro h; exact Bool.noConfusion h
    · rintro ⟨f2, hf, _⟩; exact Json.noConfusion hf
  | str s =>
    constructor
    · intro h; exact Bool.noConfusion h
    · rintro ⟨f2, hf, _⟩; exact Json.noConfusion hf
  | arr es =>
    constructor
    · intro h; exact Bool.noConfusion h
    · rintro ⟨f2, hf, _⟩; exact Json.noConfusion hf

/-- Unfolding of `validate_ai_response` on a mapping. -/
theorem validate_ai_response_obj (fields : List (List Char × Json)) :
    validate_ai_response (Json.obj fields) =
      (if ¬ hasKey fields (("reasoning").toList) = true then false
       else if ¬ hasKey fields (("commands").toList) = true then false
       else
         match jlookup fields (("commands").toList) with
         | some (Json.arr cmds) => cmds.all validCommand
         | _ => false) := rfl

/-- C3: the Response Validator returns true iff the decision is a mapping
containing `reasoning` and a `commands` key whose value is a sequence of
commands each passing the per-command checks; a decision missing
`reasoning`, missing `commands`, or with non-sequence `commands` fails,
while empty `commands` passes.  (The embedding is a total function: the
Python `except` clause that would also return false is unreachable on
parsed-JSON inputs, so no exception propagates.) -/
theorem claim_C3_response_validator :
    (∀ d, validate_ai_response d = true ↔
      ∃ fields, d = Json.obj fields ∧
        hasKey fields (("reasoning").toList) = true ∧
        ∃ cmds, jlookup fields (("commands").toList) = some (Json.arr cmds) ∧
          ∀ c ∈ cmds, ∃ f, c = Json.obj f ∧
            hasKey f (("entity_id").toList) = true ∧
            hasKey f (("action").toList) = true ∧
            ∀ sp, jlookup f (("service_params").toList) = some sp →
              ∃ g, sp = Json.obj g)
    ∧ validate_ai_response (Json.obj
        [((("reasoning").toList), Json.str []),
         ((("commands").toList), Json.arr [])]) = true
    ∧ validate_ai_response (Json.obj
        [((("commands").toList), Json.arr [])]) = false
    ∧ validate_ai_response (Json.obj
        [((("reasoning").toList), Json.str [])]) = false
    ∧ validate_ai_response (Json.obj
        [((("reasoning").toList), Json.str []),
         ((("commands").toList), Json.str [])]) = false := by
  refine ⟨?_, by rfl, by rfl, by rfl, by rfl⟩
  intro d
  cases d with
  | obj fields =>
    by_cases hr : hasKey fields (("reasoning").toList) = true
    · by_cases hc : hasKey fields (("commands").toList) = true
      · cases hl : jlookup fields (("commands").toList) with
        | none =>
          have hcontra := jlookup_isSome_eq_hasKey fields (("commands").toList)
          rw [hl, hc] at hcontra
          exact absurd hcontra (by simp)
        | some v =>
          cases v with
          | arr cmds =>
            have hval : validate_ai_response (Json.obj fields) =
                cmds.all validCommand := by
              rw [validate_ai_response_obj, if_neg (not_not_intro hr), if_neg (not_not_intro hc), hl]
            rw [hval, List.all_eq_true]
            constructor
            · intro h
              exact ⟨fields, rfl, hr, cmds, hl,
                fun c hcmem => (validCommand_iff c).mp (h c hcmem)⟩
            · rintro ⟨f2, hf, _, cmds2, hl2, h4⟩
              rw [Json.obj.injEq] at hf
              subst hf
              rw [hl, Option.some.injEq, Json.arr.injEq] at hl2
              subst hl2
              intro c hcmem
              exact (validCommand_iff c).mpr (h4 c hcmem)
          | null =>
            have hval : validate_ai_response (Json.obj fields) = false := by
              rw [validate_ai_response_obj, if_neg (not_not_intro hr), if_neg (not_not_intro hc), hl]
            rw [hval]
            constructor
            · intro h; exact Bool.noConfusion h
            · rintro ⟨f2, hf, _, cmds2, hl2, _⟩
              rw [Json.obj.injEq] at hf
              subst hf
              rw [hl, Option.some.injEq] at hl2
              exact Json.noConfusion hl2
          | bool b =>
            have hval : validate_ai_response (Json.obj fields) = false := by
              rw [validate_ai_response_obj, if_neg (not_not_intro hr), if_neg (not_not_intro hc), hl]
            rw [hval]
            constructor
            · intro h; exact Bool.noConfusion h
            · rintro ⟨f2, hf, _, cmds2, hl2, _⟩
              rw [Json.obj.injEq] at hf
              subst hf
              rw [hl, Option.some.injEq] at hl2
              exact Json.noConfusion hl2
          | num q =>
            have hval : validate_ai_response (Json.obj fields) = false := by
              rw [validate_ai_response_obj, if_neg (not_not_intro hr), if_neg (not_not_intro hc), hl]
            rw [hval]
            constructor
            · intro h; exact Bool.noConfusion h
            · rintro ⟨f2, hf, _, cmds2, hl2, _⟩
              rw [Json.obj.injEq] at hf
              subst hf
              rw [hl, Option.some.injEq] at hl2
              exact Json.noConfusion hl2
          | str s =>
            have hval : validate_ai_response (Json.obj fields) = false := by
              rw [validate_ai_response_obj, if_neg (not_not_intro hr), if_neg (not_not_intro hc), hl]
            rw [hval]
            constructor
            · intro h; exact Bool.noConfusion h
            · rintro ⟨f2, hf, _, cmds2, hl2, _⟩
              rw [Json.obj.injEq] at hf
              subst hf
              rw [hl, Option.some.injEq] at hl2
              exact Json.noConfusion hl2
          | obj g =>
            have hval : validate_ai_response (Json.obj fields) = false := by
              rw [validate_ai_response_obj, if_neg (not_not_intro hr), if_neg (not_not_intro hc), hl]
            rw [hval]
            constructor
            · intro h; exact Bool.noConfusion h
            · rintro ⟨f2, hf, _, cmds2, hl2, _⟩
              rw [Json.obj.injEq] at hf
              subst hf
              rw [hl, Option.some.injEq] at hl2
              exact Json.noConfusion hl2
      · have hval : validate_ai_response (Json.obj fields) = false := by
          rw [validate_ai_response_obj, if_neg (not_not_intro hr), if_pos hc]
        rw [hval]
        constructor
        · intro h; exact Bool.noConfusion h
        · rintro ⟨f2, hf, _, cmds2, hl2, _⟩
          rw [Json.obj.injEq] at hf
          subst hf
          have hcontra := jlookup_isSome_eq_hasKey fields (("commands").toList)
          rw [hl2] at hcontra
          exact absurd hcontra.symm hc
    · have hval : validate_ai_response (Json.obj fields) = false := by
        rw [validate_ai_response_obj, if_pos hr]
      rw [hval]
      constructor
      · intro h; exact Bool.noConfusion h
      · rintro ⟨f2, hf, hrr, _⟩
        rw [Json.obj.injEq] at hf
        subst hf
        exact absurd hrr hr
  | null =>
    constructor
    · intro h; exact Bool.noConfusion h
    · rintro ⟨f2, hf, _⟩; exact Json.noConfusion hf
  | bool b =>
    constructor
    · intro h; exact Bool.noConfusion h
    · rintro ⟨f2, hf, _⟩; exact Json.noConfusion hf
  | num q =>
    constructor
    · intro h; exact Bool.noConfusion h
    · rintro ⟨f2, hf, _⟩; exact Json.noConfusion hf
  | str s =>
    constructor
    · intro h; exact Bool.noConfusion h
    · rintro ⟨f2, hf, _⟩; exact Json.noConfusion hf
  | arr es =>
    constructor
    · intro h; exact Bool.noConfusion h
    · rintro ⟨f2, hf, _⟩; exact Json.noConfusion hf

/-- C10: the authorization check is total on every entity id (Python
`split` always returns a nonempty list, so taking its first element never
raises — the embedding is a total function), and an id without a dot uses
the entire id as the domain, so a bare whitelisted domain name is
authorized. -/
theorem claim_C10_no_dot_whole_domain :
    (∀ e a, ('.' ∈ e → False) →
      validate_entity_domain e a =
        (match domainActions e with
         | some acts => acts.contains a
         | none => false))
    ∧ validate_entity_domain (("light").toList) (("turn_on").toList) = true := by
  refine ⟨?_, by decide⟩
  intro e a h
  have hsplit : pySplitHead e = e := by
    unfold pySplitHead
    exact takeWhile_eq_self_of_all (fun c hc => by
      have hne : c ≠ '.' := fun hcc => h (hcc ▸ hc)
      simpa [bne_iff_ne] using hne)
  unfold validate_entity_domain
  rw [hsplit]
  cases hd : domainActions e with
  | none => simp [hd]
  | some acts => simp [hd]

/-- C10 witness: the theorem applied at the concrete bare-domain id. -/
theorem claim_C10_witness :
    validate_entity_domain (("light").toList) (("turn_on").toList) =
      (match domainActions (("light").toList) with
       | some acts => acts.contains (("turn_on").toList)
       | none => false) :=
  claim_C10_no_dot_whole_domain.1 (("light").toList) (("turn_on").toList)
    (by decide)

/-- A concrete 429 error body, as decoded from the response. -/
def errBody : Json :=
  Json.obj [((("error").toList), Json.str (("rate limited").toList))]

/-- The error message of a 429 whose `Retry-After` header was `120`. -/
def msg120 : List Char := rateLimitMessage (some (("120").toList)) errBody

/-- C5: on a 429 event whose error detail carries the parseable
`Retry-After` value 120, the monitor sets the limited flag and schedules
recovery at exactly 120 time units; the exponential counter `retry_delay`
is neither consulted (the wait is 120 whatever its value) nor doubled. -/
theorem claim_C5_retry_after_honored :
    ∀ b d m,
      handle_rate_limit
        { rate_limited := b, retry_delay := d, max_retry_delay := m } msg120 =
      ({ rate_limited := true, retry_delay := d, max_retry_delay := m }, 120) := by
  intro b d m
  have h : extract_retry_after msg120 = some 120 := by decide
  unfold handle_rate_limit
  rw [h]
  simp

/-- The error message of a 429 with no `Retry-After` header (the header
renders as `None`, from which no digit run follows the scanned pattern). -/
def noRetryMsg : List Char := rateLimitMessage none (Json.obj [])

/-- Iterated backoff states: the monitor state after `k` successive
429 events carrying no parseable `Retry-After`, starting from the
freshly-initialised monitor. -/
def backoffIter : Nat → MonitorState
  | 0 => initMonitorState
  | k + 1 => (handle_rate_limit (backoffIter k) noRetryMsg).1

/-- The wait scheduled by the `k`-th such event (0-indexed). -/
def nthBackoffWait (k : Nat) : Nat :=
  (handle_rate_limit (backoffIter k) noRetryMsg).2

/-- Fields of the iterated backoff states. -/
theorem backoffIter_fields (k : Nat) :
    (backoffIter k).retry_delay = min (60 * 2 ^ k) 3600 ∧
    (backoffIter k).max_retry_delay = 3600 := by
  induction k with
  | zero => exact ⟨by decide, rfl⟩
  | succ k ih =>
    have hnone : extract_retry_after noRetryMsg = none := by decide
    have hstep : backoffIter (k + 1) =
        (handle_rate_limit (backoffIter k) noRetryMsg).1 := rfl
    rw [hstep, handle_rate_limit_no_retry _ _ hnone]
    constructor
    · show min ((backoffIter k).retry_delay * 2) (backoffIter k).max_retry_delay =
        min (60 * 2 ^ (k + 1)) 3600
      rw [ih.1, ih.2, show 60 * 2 ^ (k + 1) = 60 * 2 ^ k * 2 by ring]
      generalize 60 * 2 ^ k = a
      omega
    · exact ih.2

/-- C6: on a 429 event with no parseable `Retry-After`, the monitor waits
the current `retry_delay` and doubles it with ceiling 3600; starting from
60, successive such events wait `min (60 * 2 ^ k) 3600` — 60, 120, 240, …
— and the wait never exceeds 3600. -/
theorem claim_C6_exponential_backoff :
    (∀ s msg, extract_retry_after msg = none →
      handle_rate_limit s msg =
        ({ rate_limited := true,
           retry_delay := min (s.retry_delay * 2) s.max_retry_delay,
           max_retry_delay := s.max_retry_delay }, s.retry_delay))
    ∧ (∀ k, nthBackoffWait k = min (60 * 2 ^ k) 3600)
    ∧ (∀ k, nthBackoffWait k ≤ 3600) := by
  have hnone : extract_retry_after noRetryMsg = none := by decide
  have hwait : ∀ k, nthBackoffWait k = min (60 * 2 ^ k) 3600 := by
    intro k
    show (handle_rate_limit (backoffIter k) noRetryMsg).2 = _
    rw [handle_rate_limit_no_retry _ _ hnone]
    exact (backoffIter_fields k).1
  refine ⟨fun s msg h => handle_rate_limit_no_retry s msg h, hwait, ?_⟩
  intro k
  rw [hwait k]
  exact Nat.min_le_right _ _

/-- C6 witness: the first no-`Retry-After` event on a fresh monitor waits
60 and doubles the delay to 120. -/
theorem claim_C6_witness :
    handle_rate_limit initMonitorState noRetryMsg =
      ({ rate_limited := true, retry_delay := min (60 * 2) 3600,
         max_retry_delay := 3600 }, 60) :=
  claim_C6_exponential_backoff.1 initMonitorState noRetryMsg (by decide)

/-- C7: while the limited flag is set, a periodic trigger issues no HTTP
request, schedules nothing, and leaves the monitor state unchanged (a
logged no-op). -/
theorem claim_C7_limited_trigger_noop :
    ∀ s resp, s.rate_limited = true →
      async_update s resp =
        { state := s, requestIssued := false, scheduledRecovery := none } := by
  intro s resp h
  unfold async_update
  rw [h]
  simp

/-- C7 witness: the theorem applied at a concrete limited state. -/
theorem claim_C7_witness :
    async_update { rate_limited := true, retry_delay := 60, max_retry_delay := 3600 }
        { status := 200, body := Json.null, retryAfter := none } =
      { state := { rate_limited := true, retry_delay := 60, max_retry_delay := 3600 },
        requestIssued := false, scheduledRecovery := none } :=
  claim_C7_limited_trigger_noop _ _ rfl

/-- C8 counterexample: recovery does *not* reset `retry_delay` to its
initial value 60 — a monitor recovering with `retry_delay` 120 keeps
120. -/
theorem claim_C8_counterexample :
    (reset_rate_limit
      { rate_limited := true, retry_delay := 120, max_retry_delay := 3600 }).retry_delay
      = 120 ∧ (120 : Nat) ≠ 60 :=
  ⟨rfl, by decide⟩

/-- C8 amended: recovery clears the limited flag and modifies no other
monitor state; in particular `retry_delay` is *not* reset to 60 but keeps
whatever value the preceding rate-limit handling left (the doubling
persists across recoveries). -/
theorem claim_C8_recovery_clears_flag_only :
    (∀ s, reset_rate_limit s =
      { rate_limited := false, retry_delay := s.retry_delay,
        max_retry_delay := s.max_retry_delay })
    ∧ (∀ s msg,
        (reset_rate_limit (handle_rate_limit s msg).1).rate_limited = false ∧
        (reset_rate_limit (handle_rate_limit s msg).1).retry_delay =
          ((handle_rate_limit s msg).1).retry_delay) :=
  ⟨fun _ => rfl, fun _ _ => ⟨rfl, rfl⟩⟩

/-- The JSON-mode condition as a relation on texts. -/
theorem usesJsonResponseFormat_iff (model : List Char) :
    usesJsonResponseFormat model = true ↔
      ((∃ pre suf, model = pre ++ (("gpt-4").toList) ++ suf) ∨
       (∃ pre suf, model = pre ++ (("gpt-3.5").toList) ++ suf) ∨
       (∃ pre suf, lowerStr model = pre ++ (("json").toList) ++ suf)) := by
  unfold usesJsonResponseFormat
  simp only [Bool.or_eq_true, containsSub_iff, or_assoc]

/-- C9 counterexample: the model name `GPT-4` contains `gpt-4`
case-insensitively, yet the payload carries no `response_format` field —
the `gpt-4`/`gpt-3.5` containment tests of the code are case-sensitive. -/
theorem claim_C9_counterexample :
    (buildPayload (("p").toList) (("GPT-4").toList) 500 1).response_format = none
    ∧ containsSub (("gpt-4").toList) (lowerStr (("GPT-4").toList)) = true := by
  exact ⟨rfl, by decide⟩

/-- C9 amended: the payload carries `response_format` of type
`json_object` iff the model name contains `gpt-4` or `gpt-3.5`
case-sensitively, or contains `json` after lower-casing
(case-insensitively). -/
theorem claim_C9_json_mode_condition :
    ∀ prompt model mt t,
      (buildPayload prompt model mt t).response_format =
          some (("json_object").toList) ↔
        ((∃ pre suf, model = pre ++ (("gpt-4").toList) ++ suf) ∨
         (∃ pre suf, model = pre ++ (("gpt-3.5").toList) ++ suf) ∨
         (∃ pre suf, lowerStr model = pre ++ (("json").toList) ++ suf)) := by
  intro prompt model mt t
  constructor
  · intro hsome
    by_cases h : usesJsonResponseFormat model = true
    · exact (usesJsonResponseFormat_iff model).mp h
    · exfalso
      have h' : usesJsonResponseFormat model = false := by
        simpa using h
      simp [buildPayload, h'] at hsome
  · intro hdisj
    have h := (usesJsonResponseFormat_iff model).mpr hdisj
    simp [buildPayload, h]

/-- A concrete 429 response carrying a body and a `Retry-After` hint. -/
def resp429 : HttpResponse :=
  { status := 429, body := errBody, retryAfter := some (("120").toList) }

/-- C1 counterexample: `send_to_deepseek` — the function realising the
LLM Client `send` contract — does *not* raise a distinguished rate-limit
condition on HTTP 429: `raise_for_status` raises
`aiohttp.ClientResponseError`, a subclass of `aiohttp.ClientError`, which
the function's own `except` clause catches and collapses into the generic
`None` failure result, hint and body discarded. -/
theorem claim_C1_counterexample :
    send_to_deepseek resp429 = SendOutcome.nullResult := rfl

/-- C1 amended: the distinguished rate-limit condition lives on the
integration's request path instead: `_execute_ai_rules` on HTTP 429 raises
`RateLimitExceededError` whose message carries the decoded response body
and the `Retry-After` hint, and the condition propagates to
`_async_update`, which routes it to the Rate-Limit Monitor
(`_handle_rate_limit`) — setting the limited flag and scheduling
recovery — rather than swallowing it. -/
theorem claim_C1_rate_limit_condition_propagates :
    ∀ (resp : HttpResponse) (s : MonitorState),
      resp.status = 429 → s.rate_limited = false →
      execute_ai_rules resp =
        ExecOutcome.rateLimit (rateLimitMessage resp.retryAfter resp.body)
      ∧ (∃ pre suf, rateLimitMessage resp.retryAfter resp.body =
          pre ++ pyRepr resp.body ++ suf)
      ∧ (∀ h, resp.retryAfter = some h →
          ∃ pre suf, rateLimitMessage resp.retryAfter resp.body =
            pre ++ ((("Retry-After: ").toList) ++ h) ++ suf)
      ∧ async_update s resp =
          { state := (handle_rate_limit s
              (rateLimitMessage resp.retryAfter resp.body)).1,
            requestIssued := true,
            scheduledRecovery := some (handle_rate_limit s
              (rateLimitMessage resp.retryAfter resp.body)).2 }
      ∧ ((async_update s resp).state).rate_limited = true := by
  intro resp s h429 hnl
  have hexec : execute_ai_rules resp =
      ExecOutcome.rateLimit (rateLimitMessage resp.retryAfter resp.body) := by
    unfold execute_ai_rules
    rw [h429]
    simp
  have hupd : async_update s resp =
      { state := (handle_rate_limit s
          (rateLimitMessage resp.retryAfter resp.body)).1,
        requestIssued := true,
        scheduledRecovery := some (handle_rate_limit s
          (rateLimitMessage resp.retryAfter resp.body)).2 } := by
    unfold async_update
    rw [hnl, hexec]
    simp
  refine ⟨hexec, ?_, ?_, hupd, ?_⟩
  · refine ⟨("Rate limit exceeded. Retry-After: ").toList ++
      (match resp.retryAfter with
       | some h => h
       | none => ("None").toList) ++ (". Error details: ").toList, [], ?_⟩
    unfold rateLimitMessage
    simp
  · intro h hra
    refine ⟨("Rate limit exceeded. ").toList,
      (". Error details: ").toList ++ pyRepr resp.body, ?_⟩
    unfold rateLimitMessage
    rw [hra]
    rw [show ("Rate limit exceeded. Retry-After: ").toList =
      ("Rate limit exceeded. ").toList ++ ("Retry-After: ").toList by decide]
    simp
  · rw [hupd]
    exact handle_rate_limit_sets_flag s _

/-- C1 witness: the amended theorem at the concrete 429 response and a
fresh monitor. -/
theorem claim_C1_witness :
    execute_ai_rules resp429 =
      ExecOutcome.rateLimit (rateLimitMessage resp429.retryAfter resp429.body)
    ∧ ((async_update initMonitorState resp429).state).rate_limited = true :=
  ⟨(claim_C1_rate_limit_condition_propagates resp429 initMonitorState rfl rfl).1,
   (claim_C1_rate_limit_condition_propagates resp429 initMonitorState
      rfl rfl).2.2.2.2⟩

/-- A prose-wrapped reply whose explanatory prose contains a closing brace
after the JSON object. -/
def braceProseText : List Char :=
  ("I think \x7b\"a\": true\x7d is right\x7d").toList

/-- The single well-formed JSON object contained in `braceProseText`. -/
def braceProseObj : List Char := ("\x7b\"a\": true\x7d").toList

/-- C4 counterexample: `braceProseText` contains exactly one well-formed
JSON object (`braceProseObj`, which parses), yet the Extractor returns
`None` instead of that object: the greedy span from the first opening
brace to the last closing brace covers the trailing prose and fails to
parse. -/
theorem claim_C4_counterexample :
    extract_json_from_response braceProseText = none
    ∧ containsSub braceProseObj braceProseText = true
    ∧ jsonParse braceProseObj =
        some (Json.obj [((("a").toList), Json.bool true)]) := by
  refine ⟨rfl, by decide, rfl⟩

/-- C4 amended: the Extractor returns the wrapped object unchanged
provided that, after code-fence removal and stripping, the text decomposes
as prose, then the object, then prose, where the leading prose contains no
opening brace and the trailing prose no closing brace (so the greedy
first-to-last brace span is exactly the object).  With brace characters in
the surrounding prose the extraction can fail, as the counterexample
shows. -/
theorem claim_C4_extractor_returns_wrapped_object :
    ∀ (text pre mid post : List Char) (v : Json),
      pyStrip (removeFences text) = pre ++ ('{' :: mid ++ ['}']) ++ post →
      (∀ c ∈ pre, c ≠ '{') →
      (∀ c ∈ post, c ≠ '}') →
      jsonParse ('{' :: mid ++ ['}']) = some v →
      extract_json_from_response text = some v := by
  intro text pre mid post v hdecomp hpre hpost hparse
  have h1 : (pre ++ ('{' :: mid ++ ['}']) ++ post).dropWhile
      (fun c => c != '{') = '{' :: (mid ++ '}' :: post) := by
    have e1 : pre ++ ('{' :: mid ++ ['}']) ++ post =
        pre ++ ('{' :: (mid ++ '}' :: post)) := by simp
    rw [e1,
      dropWhile_append_of_all (fun c hc => by simpa [bne_iff_ne] using hpre c hc)]
    exact @dropWhile_cons_of_neg (fun c => c != '{') '{' (mid ++ '}' :: post)
      (by simp)
  have h2 : (mid ++ '}' :: post).reverse.dropWhile
      (fun x => x != '}') = '}' :: mid.reverse := by
    have e2 : (mid ++ '}' :: post).reverse =
        post.reverse ++ ('}' :: mid.reverse) := by simp
    rw [e2,
      dropWhile_append_of_all (fun c hc => by
        have hc2 : c ∈ post := List.mem_reverse.mp hc
        simpa [bne_iff_ne] using hpost c hc2)]
    exact @dropWhile_cons_of_neg (fun x => x != '}') '}' mid.reverse (by simp)
  have hbrace : braceSpan (pyStrip (removeFences text)) =
      some ('{' :: mid ++ ['}']) := by
    rw [hdecomp]
    unfold braceSpan
    rw [h1]
    show (match (mid ++ '}' :: post).reverse.dropWhile (fun x => x != '}') with
          | [] => none
          | r0 => some ('{' :: r0.reverse)) = some ('{' :: mid ++ ['}'])
    rw [h2]
    simp
  unfold extract_json_from_response
  show (match braceSpan (pyStrip (removeFences text)) with
        | some sp =>
          match jsonParse sp with
          | some v2 => some v2
          | none =>
            match bracketSpan (pyStrip (removeFences text)) with
            | some sp2 => jsonParse sp2
            | none => none
        | none =>
          match bracketSpan (pyStrip (removeFences text)) with
          | some sp2 => jsonParse sp2
          | none => none) = some v
  rw [hbrace]
  show (match jsonParse ('{' :: mid ++ ['}']) with
        | some v2 => some v2
        | none =>
          match bracketSpan (pyStrip (removeFences text)) with
          | some sp2 => jsonParse sp2
          | none => none) = some v
  rw [hparse]

/-- A reply wrapping the JSON object in prose and a markdown code fence,
with no brace characters in the prose. -/
def fencedReplyText : List Char :=
  ("Here is it: ```json\n\x7b\"a\": true\x7d\n``` ok").toList

/-- C4 witness: the amended theorem applied to the concrete fenced,
prose-wrapped reply. -/
theorem claim_C4_witness :
    extract_json_from_response fencedReplyText =
      some (Json.obj [((("a").toList), Json.bool true)]) :=
  claim_C4_extractor_returns_wrapped_object fencedReplyText
    (("Here is it: \n").toList) (("\"a\": true").toList) (("\n ok").toList)
    (Json.obj [((("a").toList), Json.bool true)])
    (by rfl) (by decide) (by decide) (by rfl)
